import Mathlib

/-!
Shallow embedding of the torrent-engine core (package `engine`, file
`engine.go` of SaeedHurzuk/simple-torrent) in Lean 4, together with
theorems settling the specification claims about it.

Modelling conventions:
* Go machine integers become `Int` (the conditions compared are small and
  never overflow, so no modular reduction is needed).
* `float32` seed ratios become `Rat`; the order comparisons `<`, `>=` used
  by the code agree with the real order on the represented values.
* Timestamps (`time.Time`) are whole seconds as `Int`; `time.Since(x)` at
  current time `now` is `now - x` seconds, matching the code's
  `int(time.Since(x).Seconds())` truncation exactly on whole seconds.
* The Go map `ts map[string]*Torrent` becomes an association list with
  unique keys; pointer mutation of a `*Torrent` becomes a functional
  update of the entry under its key.
* Channels: closing a task's `dropWait` is recorded in an engine-level
  list `closedDrops` (the broadcast remains observable by workers after
  the record leaves the table); the buffered `TsChanged` channel is
  modelled by its occupancy count, see `sendStateChanged`.
* External effects of the anacrolix client (`AddTorrentSpec`,
  `SetPriority`, `AllowDataUpload`, ...) are mirrored in fields of the
  task record (`clientTorrents`, `priority`, `allowUpload`, ...): the
  engine owns only these references, and the claims speak only about
  which calls are made, which the fields record one-to-one.
-/

/-- Task kinds, `taskType` in the source: `taskMagnet` and `taskTorrent`. -/
inductive TaskType where
  | magnet
  | torrentFile
deriving DecidableEq, Repr

/-- The two piece priorities the engine ever sets on a file handle:
`torrent.PiecePriorityNone` and `torrent.PiecePriorityNormal`. -/
inductive PiecePriority where
  | NoneP
  | NormalP
deriving DecidableEq, Repr

/-- Per-file record (`File` of the engine package): path, `Started` flag,
and the priority last set on the client's file handle (the engine's only
interaction with the handle). -/
structure File where
  Path : String
  Started : Bool
  priority : PiecePriority
deriving DecidableEq, Repr

/-- Per-task record (`Torrent` of the engine package), restricted to the
fields the claims touch. `hasInfo` models `t.t.Info() != nil`;
`allowUpload` and `allowDownload` mirror the client handle's
`AllowDataUpload`/`DisallowDataUpload` (and download) state. -/
structure Torrent where
  InfoHash : String
  Name : String
  Started : Bool
  ManualStarted : Bool
  Done : Bool
  IsAllFilesDone : Bool
  SeedRatio : Rat
  StartedAt : Int
  StoppedAt : Int
  Files : List File
  hasInfo : Bool
  allowUpload : Bool
  allowDownload : Bool
deriving DecidableEq, Repr

/-- The configuration fields the claims touch (`Config`): `MaxConcurrentTask`
(0 = unlimited), `SeedRatio` threshold (0 = disabled), stale-removal
duration `RemoveTaskAfterStopped` in seconds, `AutoStart`. -/
structure Config where
  IncomingPort : Int
  MaxConcurrentTask : Int
  SeedRatio : Rat
  RemoveTaskAfterStopped : Int
  AutoStart : Bool
deriving DecidableEq, Repr

/-- Engine state (`Engine`): the task table `ts`, the FIFO wait list, the
identities registered with the external anacrolix client
(`e.client.Torrents()`), the two kinds of resume-cache records keyed by
identity, the identities whose `dropWait` channel has been closed, and the
configuration. -/
structure Engine where
  ts : List (String × Torrent)
  waitList : List (String × TaskType)
  clientTorrents : List String
  magnetCache : List String
  torrentCache : List String
  closedDrops : List String
  config : Config
deriving DecidableEq, Repr

/-- The error results the embedded operations return, one constructor per
distinct error the source constructs (`ErrTaskExists`, `ErrMaxConnTasks`,
the `fmt.Errorf` idempotency guards, ...). -/
inductive EngErr where
  | taskExists
  | waitListEmpty
  | maxConnTasks
  | alreadyStarted
  | alreadyStopped
  | missingFile (path : String)
  | invalidInfoHash
  | external (msg : String)
deriving DecidableEq, Repr

/-- Go-map lookup on the association list (first entry with the key). -/
def lookupT : List (String × Torrent) → String → Option Torrent
  | [], _ => none
  | p :: rest, ih => if p.1 = ih then some p.2 else lookupT rest ih

/-- Go-map assignment: replace the entry under the key (pointer mutation of
the `*Torrent` held in the map). -/
def updateKey : List (String × Torrent) → String → Torrent → List (String × Torrent)
  | [], _, _ => []
  | p :: rest, ih, t =>
      if p.1 = ih then (ih, t) :: updateKey rest ih t else p :: updateKey rest ih t

/-- Go-map deletion of the entry under the key. -/
def removeKey : List (String × Torrent) → String → List (String × Torrent)
  | [], _ => []
  | p :: rest, ih => if p.1 = ih then removeKey rest ih else p :: removeKey rest ih

/-- Update the FIRST file whose `Path` matches (the source finds the first
match with `break` and mutates that one record through its pointer). -/
def updateFirstFile : List File → String → (File → File) → List File
  | [], _, _ => []
  | f :: rest, p, u =>
      if f.Path = p then u f :: rest else f :: updateFirstFile rest p u

def Engine.setTorrent (e : Engine) (ih : String) (t : Torrent) : Engine :=
  { e with ts := updateKey e.ts ih t }

/-- `New` (engine.go lines 52-59): fresh engine with empty table, fresh
wait list and zero-valued configuration; `TsChanged` is allocated with
capacity one, recorded by `tsChangedCapacity` below. -/
def Engine.New : Engine :=
  { ts := []
    waitList := []
    clientTorrents := []
    magnetCache := []
    torrentCache := []
    closedDrops := []
    config :=
      { IncomingPort := 0, MaxConcurrentTask := 0, SeedRatio := 0,
        RemoveTaskAfterStopped := 0, AutoStart := false } }

/-- Capacity of the `TsChanged` channel: `make(chan struct, 1)` in `New`. -/
def tsChangedCapacity : Nat := 1

/-- The plain Go channel send `e.TsChanged <- ...` performed by
`torrentEventProcessor` on the metadata-ready path (engine.go line 267),
as a function of the channel's occupancy: a send into a buffer with free
space completes at once with one more pending notification; a send into a
full buffer does NOT complete — the sender blocks until a consumer
receives (`none`: no immediate transition for the emitter). -/
def sendStateChanged (occupancy : Nat) : Option Nat :=
  if occupancy < tsChangedCapacity then some (occupancy + 1) else none

/-- The behaviour the specification ascribes to that send, written from the
spec's words for comparison: a send that finds the slot full "is simply
dropped" (occupancy unchanged), never queued or blocking. -/
def sendStateChangedSpec (occupancy : Nat) : Nat :=
  if occupancy < tsChangedCapacity then occupancy + 1 else occupancy

/-- `isReadyAddTask` (engine.go lines 205-211): ready unless the limit is
positive and the client already holds at least that many torrents. -/
def Engine.isReadyAddTask (e : Engine) : Bool :=
  if 0 < e.config.MaxConcurrentTask ∧
      e.config.MaxConcurrentTask ≤ (e.clientTorrents.length : Int)
  then false
  else true

/-- Modelled from the spec: `isTaskInList` lives in a repository file
missing from src/; per the spec the wait list's "set excludes duplicates of
identities ... already queued", so it tests wait-list membership of the
identity. -/
def Engine.isTaskInList (e : Engine) (ih : String) : Bool :=
  e.waitList.any (fun p => p.1 = ih)

/-- Modelled from the spec: `pushWaitTask` lives in a repository file
missing from src/; per the spec the wait list is a FIFO queue of
identity-plus-kind entries, so enqueueing appends at the tail. -/
def Engine.pushWaitTask (e : Engine) (ih : String) (tt : TaskType) : Engine :=
  { e with waitList := e.waitList ++ [(ih, tt)] }

/-- The zero-valued placeholder task record: "a Task is created ... on
queueing (placeholder, shown but without a protocol handle)". -/
def newPlaceholderTorrent (ih name : String) : Torrent :=
  { InfoHash := ih, Name := name, Started := false, ManualStarted := false,
    Done := false, IsAllFilesDone := false, SeedRatio := 0,
    StartedAt := 0, StoppedAt := 0, Files := [], hasInfo := false,
    allowUpload := false, allowDownload := false }

/-- Modelled from the spec: `upsertTorrent` lives in a repository file
missing from src/; per the spec the table maps unique identities to task
records and a task is created on admission or on queueing, so the upsert
returns the existing record under the identity or inserts a fresh
placeholder. -/
def Engine.upsertTorrent (e : Engine) (ih name : String) : Engine × Torrent :=
  match lookupT e.ts ih with
  | some t => (e, t)
  | none =>
      let t := newPlaceholderTorrent ih name
      ({ e with ts := e.ts ++ [(ih, t)] }, t)

/-- Modelled from the spec: `getTorrent` lives in a repository file missing
from src/; it resolves an identity in the task table, an unknown identity
being an error (`none` here, the callers return the error unchanged). -/
def Engine.getTorrent (e : Engine) (ih : String) : Option Torrent :=
  lookupT e.ts ih

/-- `newTorrentBySpec` (engine.go lines 214-246). When `isReadyAddTask`
fails: enqueue on the wait list unless the identity is already queued,
upsert a placeholder record so the queueing task is shown, and return
`ErrMaxConnTasks` — in BOTH branches. Otherwise upsert the record, hand
the spec to the external client (`AddTorrentSpec`, modelled as registering
the identity with the client) and spawn the worker (an external effect the
return value does not record). -/
def Engine.newTorrentBySpec (e : Engine) (ih name : String) (taskT : TaskType) :
    Engine × Option EngErr :=
  if ¬ e.isReadyAddTask then
    let e1 := if ¬ e.isTaskInList ih then e.pushWaitTask ih taskT else e
    let e2 := (e1.upsertTorrent ih name).1
    (e2, some EngErr.maxConnTasks)
  else
    let e1 := (e.upsertTorrent ih name).1
    let e2 := { e1 with clientTorrents := e1.clientTorrents ++ [ih] }
    (e2, none)

/-- Modelled from the spec: `newTorrentCacheFile` lives in a repository
file missing from src/; it persists the complete (manifest) resume record
under the task identity, replacing rather than duplicating it. -/
def Engine.newTorrentCacheFile (e : Engine) (ih : String) : Engine :=
  if e.torrentCache.contains ih then e
  else { e with torrentCache := e.torrentCache ++ [ih] }

/-- Modelled from the spec: `newMagnetCacheFile` lives in a repository file
missing from src/; it persists the minimal (magnet-style) resume record
under the task identity. -/
def Engine.newMagnetCacheFile (e : Engine) (ih : String) : Engine :=
  if e.magnetCache.contains ih then e
  else { e with magnetCache := e.magnetCache ++ [ih] }

/-- Modelled from the spec: `removeMagnetCache` lives in a repository file
missing from src/; it removes the minimal (magnet-style) resume record of
the identity, doing nothing if absent. -/
def Engine.removeMagnetCache (e : Engine) (ih : String) : Engine :=
  { e with magnetCache := e.magnetCache.filter (fun x => x ≠ ih) }

/-- Modelled from the spec: `removeTorrentCache` lives in a repository file
missing from src/; it removes the complete (manifest) resume record of the
identity, doing nothing if absent. -/
def Engine.removeTorrentCache (e : Engine) (ih : String) : Engine :=
  { e with torrentCache := e.torrentCache.filter (fun x => x ≠ ih) }

/-- `RemoveCache` (engine.go lines 494-497): remove the magnet-style record
then the complete record of the identity. -/
def Engine.RemoveCache (e : Engine) (ih : String) : Engine :=
  (e.removeMagnetCache ih).removeTorrentCache ih

/-- `StartTorrent` (engine.go lines 345-377). Unknown identity: error.
Already started: return the "Already started" error before touching any
field. Otherwise set `Started`, stamp `StartedAt`, start every file, and —
only when the client handle has metadata (`Info() != nil`) — allow data
upload/download and set every file's priority to normal. -/
def Engine.StartTorrent (e : Engine) (ih : String) (now : Int) :
    Engine × Option EngErr :=
  match e.getTorrent ih with
  | none => (e, some EngErr.invalidInfoHash)
  | some t =>
      if t.Started then (e, some EngErr.alreadyStarted)
      else
        let t1 : Torrent :=
          { t with Started := true, StartedAt := now,
                   Files := t.Files.map (fun f => { f with Started := true }) }
        let t2 : Torrent :=
          if t1.hasInfo then
            { t1 with allowUpload := true, allowDownload := true,
                      Files := t1.Files.map
                        (fun f => { f with priority := PiecePriority.NormalP }) }
          else t1
        (e.setTorrent ih t2, none)

/-- `StopTorrent` (engine.go lines 379-413). Unknown identity: error.
Already stopped: return the "Already stopped" error before touching any
field. Otherwise, when the handle has metadata, set every file's priority
to none and disallow data upload/download; then clear `Started`, stamp
`StoppedAt` and stop every file. -/
def Engine.StopTorrent (e : Engine) (ih : String) (now : Int) :
    Engine × Option EngErr :=
  match e.getTorrent ih with
  | none => (e, some EngErr.invalidInfoHash)
  | some t =>
      if ¬ t.Started then (e, some EngErr.alreadyStopped)
      else
        let t1 : Torrent :=
          if t.hasInfo then
            { t with Files := t.Files.map
                       (fun f => { f with priority := PiecePriority.NoneP }),
                     allowUpload := false, allowDownload := false }
          else t
        let t2 : Torrent :=
          { t1 with Started := false, StoppedAt := now,
                    Files := t1.Files.map (fun f => { f with Started := false }) }
        (e.setTorrent ih t2, none)

/-- `ManualStartTorrent` (engine.go lines 333-343): run `StartTorrent`; on
success re-resolve the task and set `ManualStarted := true`; on error
return the error unchanged. (The `none` inner branch is unreachable: a
successful start leaves the record in the table.) -/
def Engine.ManualStartTorrent (e : Engine) (ih : String) (now : Int) :
    Engine × Option EngErr :=
  match e.StartTorrent ih now with
  | (e1, none) =>
      match e1.getTorrent ih with
      | some t => (e1.setTorrent ih { t with ManualStarted := true }, none)
      | none => (e1, none)
  | (e1, some err) => (e1, some err)

/-- `StartFile` (engine.go lines 430-454): resolve task, find the first
file with the requested path (error if absent), guard an already-started
file, then set the TASK's `Started` flag to true, start the file and set
its client priority to normal. -/
def Engine.StartFile (e : Engine) (ih filepath : String) :
    Engine × Option EngErr :=
  match e.getTorrent ih with
  | none => (e, some EngErr.invalidInfoHash)
  | some t =>
      match t.Files.find? (fun f => f.Path = filepath) with
      | none => (e, some (EngErr.missingFile filepath))
      | some f =>
          if f.Started then (e, some EngErr.alreadyStarted)
          else
            let t1 : Torrent :=
              { t with Started := true,
                       Files := updateFirstFile t.Files filepath
                         (fun g => { g with Started := true,
                                            priority := PiecePriority.NormalP }) }
            (e.setTorrent ih t1, none)

/-- `StopFile` (engine.go lines 456-492): resolve task, find the first
file with the requested path (error if absent), guard an already-stopped
file, stop the file and set its client priority to none; then scan the
task's files and, if none is started any more, dispatch an asynchronous
task-level `StopTorrent` (the returned Bool records that dispatch). -/
def Engine.StopFile (e : Engine) (ih filepath : String) :
    Engine × Option EngErr × Bool :=
  match e.getTorrent ih with
  | none => (e, some EngErr.invalidInfoHash, false)
  | some t =>
      match t.Files.find? (fun f => f.Path = filepath) with
      | none => (e, some (EngErr.missingFile filepath), false)
      | some f =>
          if ¬ f.Started then (e, some EngErr.alreadyStopped, false)
          else
            let files1 := updateFirstFile t.Files filepath
              (fun g => { g with Started := false, priority := PiecePriority.NoneP })
            let t1 : Torrent := { t with Files := files1 }
            let allStopped := files1.all (fun g => !g.Started)
            (e.setTorrent ih t1, none, allStopped)

/-- `DeleteTorrent` (engine.go lines 415-428): resolve the task (error if
unknown), close its `dropWait` channel (recorded in `closedDrops`), remove
its wait-list entry, and remove its table entry. It does NOT touch the
resume-cache records: `taskRoutine` calls `RemoveCache` separately after
it. (`waitList.Remove` and `deleteTorrent` live in repository files
missing from src/; they are modelled from the spec as removal of the
wait-list entry and of the table entry under the identity.) -/
def Engine.DeleteTorrent (e : Engine) (ih : String) : Engine × Option EngErr :=
  match e.getTorrent ih with
  | none => (e, some EngErr.invalidInfoHash)
  | some _ =>
      let e1 := { e with closedDrops := e.closedDrops ++ [ih] }
      let e2 := { e1 with waitList := e1.waitList.filter (fun p => p.1 ≠ ih) }
      let e3 := { e2 with ts := removeKey e2.ts ih }
      (e3, none)

/-- The asynchronous actions a governance tick can dispatch
(`go e.StopTorrent(...)` and `go func() ... DeleteTorrent; RemoveCache`). -/
inductive GovAction where
  | stop (ih : String)
  | deleteAndPurge (ih : String)
deriving DecidableEq, Repr

/-- `taskRoutine` (engine.go lines 308-331), the governance tick: dispatch
an asynchronous stop when the ratio threshold is positive, the task's
ratio strictly exceeds it, the task is started, NOT manually started, and
done; dispatch an asynchronous delete-plus-cache-purge when additionally
to a positive threshold the stale-removal duration is positive, the ratio
has reached the threshold (>=), the task is stopped and done, and the
whole seconds elapsed since `t.StartedAt` — the code reads `StartedAt`,
not `StoppedAt` — exceed `RemoveTaskAfterStopped`. -/
def Engine.taskRoutine (e : Engine) (now : Int) (t : Torrent) : List GovAction :=
  (if 0 < e.config.SeedRatio ∧ e.config.SeedRatio < t.SeedRatio ∧
      t.Started ∧ ¬ t.ManualStarted ∧ t.Done
   then [GovAction.stop t.InfoHash] else []) ++
  (if 0 < e.config.RemoveTaskAfterStopped ∧ 0 < e.config.SeedRatio ∧
      e.config.SeedRatio ≤ t.SeedRatio ∧ ¬ t.Started ∧ t.Done ∧
      e.config.RemoveTaskAfterStopped < now - t.StartedAt
   then [GovAction.deleteAndPurge t.InfoHash] else [])

/-- Outcome of the two external descriptor-parsing steps of
`NewTorrentByFilePath`: `metainfo.LoadFromFile` returns an error;
`torrent.TorrentSpecFromMetaInfo` panics on malformed info (the case the
code's own comment warns of); or both succeed yielding the spec's identity
and display name. -/
inductive ParseOutcome where
  | loadErr (msg : String)
  | specPanics (ih : String)
  | ok (ih name : String)
deriving DecidableEq, Repr

/-- `NewTorrentByFilePath` (engine.go lines 185-203), by Go semantics. The
deferred closure recovers a parsing panic, so the process never crashes;
but the closure's own `return err` value is discarded (a deferred call's
results go nowhere), and the surrounding function's result slot is unnamed,
so after a recovered panic the function returns the zero value `nil` —
success. On a `LoadFromFile` error that error is returned; on the panic
path the cache file was already written (the write precedes
`TorrentSpecFromMetaInfo`) and the result is `none`; on full success the
cache file is written and the spec is handed to `newTorrentBySpec`. -/
def Engine.NewTorrentByFilePath (e : Engine) (outcome : ParseOutcome) :
    Engine × Option EngErr :=
  match outcome with
  | ParseOutcome.loadErr msg => (e, some (EngErr.external msg))
  | ParseOutcome.specPanics ih => (e.newTorrentCacheFile ih, none)
  | ParseOutcome.ok ih name =>
      (e.newTorrentCacheFile ih).newTorrentBySpec ih name TaskType.torrentFile

/-- A concrete configuration for the concrete instances below: limit one
concurrent task, ratio threshold 1, stale-removal duration 60 seconds. -/
def exampleConfig : Config :=
  { IncomingPort := 4202, MaxConcurrentTask := 1, SeedRatio := 1,
    RemoveTaskAfterStopped := 60, AutoStart := false }

def exFileStopped : File :=
  { Path := "a", Started := false, priority := PiecePriority.NoneP }

def exFileStarted : File :=
  { Path := "a", Started := true, priority := PiecePriority.NormalP }

def exFileStartedB : File :=
  { Path := "b", Started := true, priority := PiecePriority.NormalP }

/-- A concrete stopped, fully-done task with ratio 1, started at 0 and
stopped at 195 seconds. -/
def exTaskStopped : Torrent :=
  { InfoHash := "h", Name := "n", Started := false, ManualStarted := false,
    Done := true, IsAllFilesDone := true, SeedRatio := 1,
    StartedAt := 0, StoppedAt := 195, Files := [exFileStopped],
    hasInfo := true, allowUpload := false, allowDownload := false }

/-- A concrete started task (one started file). -/
def exTaskStarted : Torrent :=
  { exTaskStopped with Started := true, Files := [exFileStarted] }

/-- A concrete started task with two started files. -/
def exTaskTwoFiles : Torrent :=
  { exTaskStopped with Started := true, Files := [exFileStarted, exFileStartedB] }

/-- Engine at its concurrency limit (`MaxConcurrentTask = 1`, one client
torrent) with identity "h" already queued on the wait list. -/
def exEngineAtLimitQueued : Engine :=
  { Engine.New with config := exampleConfig, clientTorrents := ["x"],
                    waitList := [("h", TaskType.magnet)] }

/-- Engine at its concurrency limit with an empty wait list. -/
def exEngineAtLimit : Engine :=
  { Engine.New with config := exampleConfig, clientTorrents := ["x"] }

/-- Engine holding the concrete stopped task. -/
def exEngineStopped : Engine :=
  { Engine.New with config := exampleConfig, ts := [("h", exTaskStopped)] }

/-- Engine holding the concrete started task. -/
def exEngineStarted : Engine :=
  { Engine.New with config := exampleConfig, ts := [("h", exTaskStarted)] }

/-- Engine holding the concrete two-file started task. -/
def exEngineTwoFiles : Engine :=
  { Engine.New with config := exampleConfig, ts := [("h", exTaskTwoFiles)] }

/-- Engine holding the stopped task together with both of its resume-cache
records and a wait-list entry for it. -/
def exEngineWithCaches : Engine :=
  { Engine.New with config := exampleConfig, ts := [("h", exTaskStopped)],
                    magnetCache := ["h"], torrentCache := ["h"],
                    waitList := [("h", TaskType.magnet)] }

theorem lookupT_updateKey_self (l : List (String × Torrent)) (ih : String)
    (t t2 : Torrent) (h : lookupT l ih = some t) :
    lookupT (updateKey l ih t2) ih = some t2 := by
  induction l with
  | nil => simp [lookupT] at h
  | cons p rest IH =>
      by_cases hp : p.1 = ih
      · simp [lookupT, updateKey, hp]
      · simp [lookupT, updateKey, hp] at h ⊢
        exact IH h

theorem lookupT_append_self (l : List (String × Torrent)) (ih : String)
    (t : Torrent) (h : lookupT l ih = none) :
    lookupT (l ++ [(ih, t)]) ih = some t := by
  induction l with
  | nil => simp [lookupT]
  | cons p rest IH =>
      by_cases hp : p.1 = ih
      · simp [lookupT, hp] at h
      · simp [lookupT, hp] at h ⊢
        exact IH h

theorem lookupT_removeKey_self (l : List (String × Torrent)) (ih : String) :
    lookupT (removeKey l ih) ih = none := by
  induction l with
  | nil => simp [removeKey, lookupT]
  | cons p rest IH =>
      by_cases hp : p.1 = ih
      · simp [removeKey, hp, IH]
      · simp [removeKey, lookupT, hp, IH]

theorem mem_updateFirstFile_of_ne (fs : List File) (p : String) (u : File → File)
    (g : File) (hg : g ∈ fs) (hne : g.Path ≠ p) :
    g ∈ updateFirstFile fs p u := by
  induction fs with
  | nil => simp at hg
  | cons f rest IH =>
      rcases List.mem_cons.mp hg with h1 | h1
      · subst h1
        have hf : ¬ (g.Path = p) := hne
        simp [updateFirstFile, hf]
      · by_cases hf : f.Path = p
        · simp [updateFirstFile, hf]
          exact Or.inr h1
        · simp [updateFirstFile, hf]
          exact Or.inr (IH h1)

theorem upsert_fst_waitList (e : Engine) (ih name : String) :
    (e.upsertTorrent ih name).1.waitList = e.waitList := by
  unfold Engine.upsertTorrent
  cases h : lookupT e.ts ih <;> simp [h]

theorem upsert_fst_getTorrent_isSome (e : Engine) (ih name : String) :
    ((e.upsertTorrent ih name).1.getTorrent ih).isSome = true := by
  unfold Engine.upsertTorrent Engine.getTorrent
  cases h : lookupT e.ts ih with
  | some t => simp [h]
  | none => simp [h, lookupT_append_self e.ts ih _ h]

/-- C2: starting an already-started task fails with the AlreadyStarted
error and stopping an already-stopped task fails with the AlreadyStopped
error, and in both failure cases the engine state — hence every field of
the task, its flags, timestamps and per-file Started flags — is returned
unchanged. -/
theorem c2_idempotency_guards_no_mutation
    (e1 e2 : Engine) (ih1 ih2 : String) (t1 t2 : Torrent) (now1 now2 : Int)
    (hg1 : e1.getTorrent ih1 = some t1) (hs1 : t1.Started = true)
    (hg2 : e2.getTorrent ih2 = some t2) (hs2 : t2.Started = false) :
    e1.StartTorrent ih1 now1 = (e1, some EngErr.alreadyStarted) ∧
    e2.StopTorrent ih2 now2 = (e2, some EngErr.alreadyStopped) := by
  constructor
  · simp [Engine.StartTorrent, hg1, hs1]
  · simp [Engine.StopTorrent, hg2, hs2]

/-- C2 witness: the guards fire on the concrete started and stopped
engines, leaving each engine unchanged. -/
theorem c2_idempotency_guards_no_mutation_witness :
    exEngineStarted.getTorrent "h" = some exTaskStarted ∧
    exTaskStarted.Started = true ∧
    exEngineStopped.getTorrent "h" = some exTaskStopped ∧
    exTaskStopped.Started = false ∧
    exEngineStarted.StartTorrent "h" 7 = (exEngineStarted, some EngErr.alreadyStarted) ∧
    exEngineStopped.StopTorrent "h" 7 = (exEngineStopped, some EngErr.alreadyStopped) :=
  ⟨by decide, by decide, by decide, by decide,
   (c2_idempotency_guards_no_mutation exEngineStarted exEngineStopped "h" "h"
      exTaskStarted exTaskStopped 7 7 (by decide) (by decide) (by decide) (by decide)).1,
   (c2_idempotency_guards_no_mutation exEngineStarted exEngineStopped "h" "h"
      exTaskStarted exTaskStopped 7 7 (by decide) (by decide) (by decide) (by decide)).2⟩

/-- C3: the governance tick dispatches an asynchronous stop of the task iff
the configured ratio threshold is positive, the task's seed ratio strictly
exceeds it, the task is started, not manually started, and done; and an
otherwise-identical task with ManualStarted true is never auto-stopped. -/
theorem c3_auto_stop_iff (e : Engine) (now : Int) (t : Torrent) :
    (GovAction.stop t.InfoHash ∈ e.taskRoutine now t ↔
      (0 < e.config.SeedRatio ∧ e.config.SeedRatio < t.SeedRatio ∧
       t.Started ∧ ¬ t.ManualStarted ∧ t.Done)) ∧
    GovAction.stop t.InfoHash ∉ e.taskRoutine now { t with ManualStarted := true } := by
  constructor
  · constructor
    · intro hmem
      unfold Engine.taskRoutine at hmem
      rcases List.mem_append.mp hmem with h | h
      · split at h
        · next hc => exact hc
        · simp at h
      · split at h
        · simp at h
        · simp at h
    · intro hc
      unfold Engine.taskRoutine
      refine List.mem_append.mpr (Or.inl ?_)
      rw [if_pos hc]
      exact List.mem_singleton.mpr rfl
  · intro hmem
    unfold Engine.taskRoutine at hmem
    rcases List.mem_append.mp hmem with h | h
    · split at h
      · next hc => exact hc.2.2.2.1 (by simp)
      · simp at h
    · split at h
      · simp at h
      · simp at h

/-- C4 (code-bug evidence): on the concrete stopped, fully-done task whose
ratio has reached the threshold, the governance tick at time 200 dispatches
the asynchronous delete-plus-purge even though only 5 seconds — less than
the configured 60-second stale-removal duration — have elapsed since the
task's StoppedAt timestamp: the code measures the elapsed time from
StartedAt (200 seconds here), not from StoppedAt as the `RemoveTaskAfterStopped`
configuration name and the claim state. -/
theorem c4_auto_delete_measures_from_StartedAt :
    exEngineStopped.taskRoutine 200 exTaskStopped = [GovAction.deleteAndPurge "h"] ∧
    ¬ (exEngineStopped.config.RemoveTaskAfterStopped < 200 - exTaskStopped.StoppedAt) ∧
    exEngineStopped.config.RemoveTaskAfterStopped < 200 - exTaskStopped.StartedAt := by
  refine ⟨?_, by decide, by decide⟩
  decide

/-- C8 (code-bug evidence): when `torrent.TorrentSpecFromMetaInfo` panics
on a malformed descriptor, `NewTorrentByFilePath` returns normally — the
process does not crash — but its result is `none` (Go `nil`), i.e. SUCCESS:
the deferred closure recovers the panic yet its `return err` value is
discarded, and the function's unnamed error result defaults to nil. The
claim that a malformed-descriptor call never returns success is therefore
the intended behaviour, not the implemented one. -/
theorem c8_recovered_panic_returns_success (e : Engine) (ih : String) :
    (e.NewTorrentByFilePath (ParseOutcome.specPanics ih)).2 = none := rfl

/-- C9 counterexample: the notification send the code performs is a plain
blocking channel send; with the single slot already occupied it does not
complete (`none`: the emitter blocks until the consumer reads), whereas the
claimed drop-on-full behaviour would complete at once leaving the slot
unchanged. -/
theorem c9_counterexample_full_slot_blocks :
    sendStateChanged 1 = none ∧ sendStateChangedSpec 1 = 1 := by decide

/-- C9 amended: the "state changed" slot has capacity one, a send finding
the slot empty delivers the notification at once, and a send finding the
slot occupied blocks the emitter until the consumer reads — the
notification is not discarded and not queued beyond the single slot. -/
theorem c9_amended_capacity_one_blocking_send :
    tsChangedCapacity = 1 ∧
    sendStateChanged 0 = some 1 ∧
    ∀ n : Nat, sendStateChanged (n + 1) = none := by
  refine ⟨rfl, rfl, ?_⟩
  intro n
  simp [sendStateChanged, tsChangedCapacity]

/-- C10: ManualStartTorrent on a task whose Started flag is already true
returns the AlreadyStarted error coming from the underlying StartTorrent
and returns the engine unchanged, so the task's ManualStarted flag keeps
its previous value (and the task stays subject to ratio-driven auto-stop
whenever that value is false). -/
theorem c10_manual_start_already_started (e : Engine) (ih : String)
    (t : Torrent) (now : Int)
    (hget : e.getTorrent ih = some t) (hs : t.Started = true) :
    e.ManualStartTorrent ih now = (e, some EngErr.alreadyStarted) ∧
    (e.ManualStartTorrent ih now).1.getTorrent ih = some t := by
  have hst : e.StartTorrent ih now = (e, some EngErr.alreadyStarted) := by
    simp [Engine.StartTorrent, hget, hs]
  constructor
  · simp [Engine.ManualStartTorrent, hst]
  · simp [Engine.ManualStartTorrent, hst, hget]

/-- C10 witness: on the concrete engine whose task is started with
ManualStarted false, the manual start fails with AlreadyStarted and the
record, ManualStarted still false, is unchanged in the table. -/
theorem c10_manual_start_already_started_witness :
    exEngineStarted.getTorrent "h" = some exTaskStarted ∧
    exTaskStarted.Started = true ∧
    exTaskStarted.ManualStarted = false ∧
    exEngineStarted.ManualStartTorrent "h" 9 =
      (exEngineStarted, some EngErr.alreadyStarted) ∧
    (exEngineStarted.ManualStartTorrent "h" 9).1.getTorrent "h" = some exTaskStarted :=
  ⟨by decide, by decide, by decide,
   (c10_manual_start_already_started exEngineStarted "h" exTaskStarted 9
      (by decide) (by decide)).1,
   (c10_manual_start_already_started exEngineStarted "h" exTaskStarted 9
      (by decide) (by decide)).2⟩

/-- C1 counterexample: with the limit (1) reached and identity "h" already
queued on the wait list, the add request for "h" returns the
MaxConcurrentReached error, NOT AlreadyExists — `newTorrentBySpec` returns
`ErrMaxConnTasks` in both the fresh-enqueue and the already-queued branch,
so the claim's "the result is AlreadyExists instead" is false. -/
theorem c1_counterexample_already_queued_not_alreadyexists :
    0 < exEngineAtLimitQueued.config.MaxConcurrentTask ∧
    exEngineAtLimitQueued.config.MaxConcurrentTask ≤
      (exEngineAtLimitQueued.clientTorrents.length : Int) ∧
    exEngineAtLimitQueued.isTaskInList "h" = true ∧
    (exEngineAtLimitQueued.newTorrentBySpec "h" "n" TaskType.magnet).2 =
      some EngErr.maxConnTasks ∧
    (exEngineAtLimitQueued.newTorrentBySpec "h" "n" TaskType.magnet).2 ≠
      some EngErr.taskExists := by
  refine ⟨by decide, by decide, by decide, ?_, by decide⟩
  decide

/-- C1 amended: when the concurrent-task limit is positive and the number
of client-held tasks is at or above it, an add request returns the
MaxConcurrentReached error as a non-fatal queueing signal and a
placeholder task record exists afterwards; a not-yet-queued identity is
appended to the wait list, while an already-queued identity leaves the
wait list unchanged and the result is STILL MaxConcurrentReached
(AlreadyExists is never the result of the add). -/
theorem c1_amended_queueing_on_limit (e : Engine) (ih name : String) (tt : TaskType)
    (h1 : 0 < e.config.MaxConcurrentTask)
    (h2 : e.config.MaxConcurrentTask ≤ (e.clientTorrents.length : Int)) :
    (e.newTorrentBySpec ih name tt).2 = some EngErr.maxConnTasks ∧
    ((e.newTorrentBySpec ih name tt).1.getTorrent ih).isSome = true ∧
    (e.isTaskInList ih = false →
      (e.newTorrentBySpec ih name tt).1.waitList = e.waitList ++ [(ih, tt)]) ∧
    (e.isTaskInList ih = true →
      (e.newTorrentBySpec ih name tt).1.waitList = e.waitList) := by
  have hready : e.isReadyAddTask = false := by
    unfold Engine.isReadyAddTask
    rw [if_pos ⟨h1, h2⟩]
  by_cases hin : e.isTaskInList ih
  · refine ⟨?_, ?_, ?_, ?_⟩
    · simp [Engine.newTorrentBySpec, hready, hin]
    · simp only [Engine.newTorrentBySpec, hready, hin]
      simpa using upsert_fst_getTorrent_isSome e ih name
    · intro hfalse
      rw [hin] at hfalse
      simp at hfalse
    · intro _
      simp only [Engine.newTorrentBySpec, hready, hin]
      simpa using upsert_fst_waitList e ih name
  · have hin' : e.isTaskInList ih = false := by simpa using hin
    refine ⟨?_, ?_, ?_, ?_⟩
    · simp [Engine.newTorrentBySpec, hready, hin']
    · simp only [Engine.newTorrentBySpec, hready, hin']
      simpa using upsert_fst_getTorrent_isSome (e.pushWaitTask ih tt) ih name
    · intro _
      simp only [Engine.newTorrentBySpec, hready, hin']
      have hW := upsert_fst_waitList (e.pushWaitTask ih tt) ih name
      simpa [Engine.pushWaitTask] using hW
    · intro htrue
      rw [hin'] at htrue
      simp at htrue

/-- C1 witness: the amended statement instantiated on the concrete engine
at its limit with an empty wait list. -/
theorem c1_amended_queueing_on_limit_witness :
    0 < exEngineAtLimit.config.MaxConcurrentTask ∧
    exEngineAtLimit.config.MaxConcurrentTask ≤
      (exEngineAtLimit.clientTorrents.length : Int) ∧
    ((exEngineAtLimit.newTorrentBySpec "h" "n" TaskType.magnet).2 =
        some EngErr.maxConnTasks ∧
      ((exEngineAtLimit.newTorrentBySpec "h" "n" TaskType.magnet).1.getTorrent "h").isSome
        = true ∧
      (exEngineAtLimit.isTaskInList "h" = false →
        (exEngineAtLimit.newTorrentBySpec "h" "n" TaskType.magnet).1.waitList =
          exEngineAtLimit.waitList ++ [("h", TaskType.magnet)]) ∧
      (exEngineAtLimit.isTaskInList "h" = true →
        (exEngineAtLimit.newTorrentBySpec "h" "n" TaskType.magnet).1.waitList =
          exEngineAtLimit.waitList)) :=
  ⟨by decide, by decide,
   c1_amended_queueing_on_limit exEngineAtLimit "h" "n" TaskType.magnet
     (by decide) (by decide)⟩

/-- C5 counterexample: on the concrete engine holding task "h" together
with both of its resume-cache records, DeleteTorrent succeeds and removes
the table entry, yet both cache records are still present afterwards — the
claim that an explicit DeleteTorrent removes the resume-cache records is
false (the auto-delete path has to call RemoveCache separately for that
very reason). -/
theorem c5_counterexample_delete_leaves_cache :
    (exEngineWithCaches.DeleteTorrent "h").2 = none ∧
    (exEngineWithCaches.DeleteTorrent "h").1.getTorrent "h" = none ∧
    (exEngineWithCaches.DeleteTorrent "h").1.magnetCache = ["h"] ∧
    (exEngineWithCaches.DeleteTorrent "h").1.torrentCache = ["h"] := by
  refine ⟨?_, ?_, ?_, ?_⟩ <;> decide

/-- C5 amended: for a task present in the table, DeleteTorrent closes its
drop signal, removes the wait-list entry and the table entry, and succeeds
— but leaves both resume-cache records exactly as they were; removing them
takes the separate RemoveCache operation (which the auto-delete routine
invokes alongside DeleteTorrent), after which neither record remains. -/
theorem c5_amended_delete_scope (e : Engine) (ih : String) (t : Torrent)
    (hget : e.getTorrent ih = some t) :
    (e.DeleteTorrent ih).2 = none ∧
    (e.DeleteTorrent ih).1.closedDrops = e.closedDrops ++ [ih] ∧
    (e.DeleteTorrent ih).1.getTorrent ih = none ∧
    (∀ p ∈ (e.DeleteTorrent ih).1.waitList, p.1 ≠ ih) ∧
    (e.DeleteTorrent ih).1.magnetCache = e.magnetCache ∧
    (e.DeleteTorrent ih).1.torrentCache = e.torrentCache ∧
    ih ∉ ((e.DeleteTorrent ih).1.RemoveCache ih).magnetCache ∧
    ih ∉ ((e.DeleteTorrent ih).1.RemoveCache ih).torrentCache := by
  simp only [Engine.DeleteTorrent, hget]
  refine ⟨trivial, trivial, ?_, ?_, trivial, trivial, ?_, ?_⟩
  · exact lookupT_removeKey_self e.ts ih
  · intro p hp
    simp only [List.mem_filter, decide_eq_true_eq] at hp
    exact hp.2
  · intro hmem
    simp only [Engine.RemoveCache, Engine.removeMagnetCache, Engine.removeTorrentCache,
      List.mem_filter, decide_eq_true_eq] at hmem
    exact hmem.2 rfl
  · intro hmem
    simp only [Engine.RemoveCache, Engine.removeMagnetCache, Engine.removeTorrentCache,
      List.mem_filter, decide_eq_true_eq] at hmem
    exact hmem.2 rfl

/-- C5 witness: the amended statement instantiated on the concrete engine
holding task "h" and both cache records. -/
theorem c5_amended_delete_scope_witness :
    exEngineWithCaches.getTorrent "h" = some exTaskStopped ∧
    ((exEngineWithCaches.DeleteTorrent "h").2 = none ∧
     (exEngineWithCaches.DeleteTorrent "h").1.closedDrops =
       exEngineWithCaches.closedDrops ++ ["h"] ∧
     (exEngineWithCaches.DeleteTorrent "h").1.getTorrent "h" = none ∧
     (∀ p ∈ (exEngineWithCaches.DeleteTorrent "h").1.waitList, p.1 ≠ "h") ∧
     (exEngineWithCaches.DeleteTorrent "h").1.magnetCache =
       exEngineWithCaches.magnetCache ∧
     (exEngineWithCaches.DeleteTorrent "h").1.torrentCache =
       exEngineWithCaches.torrentCache ∧
     "h" ∉ ((exEngineWithCaches.DeleteTorrent "h").1.RemoveCache "h").magnetCache ∧
     "h" ∉ ((exEngineWithCaches.DeleteTorrent "h").1.RemoveCache "h").torrentCache) :=
  ⟨by decide, c5_amended_delete_scope exEngineWithCaches "h" exTaskStopped (by decide)⟩

/-- C6 counterexample: on the concrete stopped task, a successful StartFile
on its (stopped) file "a" sets the TASK-level Started flag to true — the
claim that StartFile leaves the task's Started flag unchanged is false
(`StartFile` executes `t.Started = true`). -/
theorem c6_counterexample_startfile_sets_task_flag :
    exTaskStopped.Started = false ∧
    (exEngineStopped.StartFile "h" "a").2 = none ∧
    ((exEngineStopped.StartFile "h" "a").1.getTorrent "h").map Torrent.Started =
      some true := by
  refine ⟨by decide, by decide, ?_⟩
  decide

/-- C6 amended: a successful StartFile starts the requested file (flag and
normal priority) AND sets the task-level Started flag to true; it leaves
the task's other fields — ManualStarted, the upload/download allowances,
the timestamps — and every other file unchanged, and in particular does not
enable task-wide data transfer. -/
theorem c6_amended_startfile_effect (e : Engine) (ih fp : String)
    (t : Torrent) (f : File)
    (hget : e.getTorrent ih = some t)
    (hfind : t.Files.find? (fun g => g.Path = fp) = some f)
    (hns : f.Started = false) :
    (e.StartFile ih fp).2 = none ∧
    ∃ t2, (e.StartFile ih fp).1.getTorrent ih = some t2 ∧
      t2.Started = true ∧
      t2.ManualStarted = t.ManualStarted ∧
      t2.allowUpload = t.allowUpload ∧
      t2.allowDownload = t.allowDownload ∧
      t2.StartedAt = t.StartedAt ∧
      t2.StoppedAt = t.StoppedAt ∧
      (∀ g ∈ t.Files, g.Path ≠ fp → g ∈ t2.Files) := by
  refine ⟨?_, ?_⟩
  · simp [Engine.StartFile, hget, hfind, hns]
  · refine ⟨{ t with
        Started := true,
        Files := updateFirstFile t.Files fp
          (fun g => { g with Started := true, priority := PiecePriority.NormalP }) },
      ?_, rfl, rfl, rfl, rfl, rfl, rfl, ?_⟩
    · have hget2 : lookupT e.ts ih = some t := hget
      simp only [Engine.StartFile, Engine.getTorrent, hget2, hfind, hns,
        Bool.false_eq_true, if_false, Engine.setTorrent]
      exact lookupT_updateKey_self e.ts ih t _ hget2
    · intro g hgmem hgne
      exact mem_updateFirstFile_of_ne t.Files fp _ g hgmem hgne

/-- C6 witness: the amended statement instantiated on the concrete stopped
engine, whose file "a" is stopped. -/
theorem c6_amended_startfile_effect_witness :
    exEngineStopped.getTorrent "h" = some exTaskStopped ∧
    exTaskStopped.Files.find? (fun g => g.Path = "a") = some exFileStopped ∧
    exFileStopped.Started = false ∧
    ((exEngineStopped.StartFile "h" "a").2 = none ∧
     ∃ t2, (exEngineStopped.StartFile "h" "a").1.getTorrent "h" = some t2 ∧
       t2.Started = true ∧
       t2.ManualStarted = exTaskStopped.ManualStarted ∧
       t2.allowUpload = exTaskStopped.allowUpload ∧
       t2.allowDownload = exTaskStopped.allowDownload ∧
       t2.StartedAt = exTaskStopped.StartedAt ∧
       t2.StoppedAt = exTaskStopped.StoppedAt ∧
       (∀ g ∈ exTaskStopped.Files, g.Path ≠ "a" → g ∈ t2.Files)) :=
  ⟨by decide, by decide, by decide,
   c6_amended_startfile_effect exEngineStopped "h" "a" exTaskStopped exFileStopped
     (by decide) (by decide) (by decide)⟩

/-- C7: a successful StopFile dispatches an asynchronous task-level
StopTorrent exactly when, afterwards, no file of the task is started: the
returned dispatch flag is true iff every file of the updated task record
has Started = false, so stopping the last started file cascades into a
task stop and stopping a non-last file dispatches no task-level stop. -/
theorem c7_stopfile_cascades_iff_all_stopped (e : Engine) (ih fp : String)
    (t : Torrent) (f : File)
    (hget : e.getTorrent ih = some t)
    (hfind : t.Files.find? (fun g => g.Path = fp) = some f)
    (hs : f.Started = true) :
    (e.StopFile ih fp).2.1 = none ∧
    ∃ t2, (e.StopFile ih fp).1.getTorrent ih = some t2 ∧
      ((e.StopFile ih fp).2.2 = true ↔ ∀ g ∈ t2.Files, g.Started = false) := by
  refine ⟨?_, ?_⟩
  · simp [Engine.StopFile, hget, hfind, hs]
  · refine ⟨{ t with
        Files := updateFirstFile t.Files fp
          (fun g => { g with Started := false, priority := PiecePriority.NoneP }) },
      ?_, ?_⟩
    · have hget2 : lookupT e.ts ih = some t := hget
      simp only [Engine.StopFile, Engine.getTorrent, hget2, hfind, hs, not_true,
        Bool.not_true, Bool.false_eq_true, if_false, Engine.setTorrent]
      exact lookupT_updateKey_self e.ts ih t _ hget2
    · have hget2 : lookupT e.ts ih = some t := hget
      simp only [Engine.StopFile, Engine.getTorrent, hget2, hfind, hs]
      simp [List.all_eq_true]

/-- C7 witness: on the concrete engine whose task has files "a" (started)
and "b" (started), stopping "a" dispatches no task-level stop; the
instantiated statement also records the success and the iff with the
post-state. -/
theorem c7_stopfile_cascades_iff_all_stopped_witness :
    exEngineTwoFiles.getTorrent "h" = some exTaskTwoFiles ∧
    exTaskTwoFiles.Files.find? (fun g => g.Path = "a") = some exFileStarted ∧
    exFileStarted.Started = true ∧
    ((exEngineTwoFiles.StopFile "h" "a").2.1 = none ∧
     ∃ t2, (exEngineTwoFiles.StopFile "h" "a").1.getTorrent "h" = some t2 ∧
       ((exEngineTwoFiles.StopFile "h" "a").2.2 = true ↔
         ∀ g ∈ t2.Files, g.Started = false)) :=
  ⟨by decide, by decide, by decide,
   c7_stopfile_cascades_iff_all_stopped exEngineTwoFiles "h" "a"
     exTaskTwoFiles exFileStarted (by decide) (by decide) (by decide)⟩
